import Mathlib

/-!
Shallow embedding of the two core components of the ryot dashboard excerpt:

* the progress-update batch expansion of the `progressUpdate` action in
  `apps/frontend/app/routes/_dashboard.media.item.$id._index.tsx` (lines 285-400),
  together with the zod schemas it parses its submission with; and
* the import-payload dispatch of the `deployImport` action in
  `apps/frontend/app/routes/_dashboard.settings.imports-and-exports._index.tsx`
  (lines 97-157) with its per-source form schemas.

Every definition is translated from the TypeScript source.  The few pieces of
behaviour that live outside the excerpt (the `processSubmission` helper, zod's
`z.string().url()` check, JavaScript's built-in `JSON.parse`) are modelled and
marked as such in their doc comments.
-/

namespace Ryot

/-! ## Progress batch expansion: data model

Mirrors `progressUpdateSchema`, `showSpecificsSchema` and
`podcastSpecificsSchema` from `_dashboard.media.item.$id._index.tsx`
(lines 432-453), and the `MetadataLot` GraphQL enumeration. -/

/-- The `MetadataLot` enumeration of media kinds (the generated GraphQL enum). -/
inductive MetadataLot where
  | AudioBook
  | Anime
  | Book
  | Podcast
  | Manga
  | Movie
  | Show
  | VideoGame
  | VisualNovel
deriving DecidableEq, Repr

/-- One entry of `showSpecificsSchema`:
`z.object(\x7b seasonNumber: z.number(), episodes: z.array(z.number()) \x7d)`.
JavaScript numbers that reach this code are (possibly negative) integers, so
they are modelled as `Int`. -/
structure SeasonEntry where
  seasonNumber : Int
  episodes : List Int
deriving DecidableEq, Repr

/-- One entry of `podcastSpecificsSchema`:
`z.object(\x7b episodeNumber: z.number() \x7d)`. -/
structure PodcastEntry where
  episodeNumber : Int
deriving DecidableEq, Repr

/-- The parsed form submission of the `progressUpdate` intent
(`progressUpdateSchema` merged with `metadataIdSchema` and
`MetadataSpecificsSchema`).  The optional `zx.BoolAsString` /
`zx.CheckboxAsString` flags collapse to `Bool` because JavaScript treats a
missing flag and `false` identically in the `if` tests of the action. -/
structure Submission where
  metadataId : Int
  metadataLot : MetadataLot
  date : Option String
  showSeasonNumber : Option Int
  showEpisodeNumber : Option Int
  podcastEpisodeNumber : Option Int
  animeEpisodeNumber : Option Int
  mangaChapterNumber : Option Int
  showAllSeasonsBefore : Bool
  onlySeason : Bool
  completeShow : Bool
  completePodcast : Bool
  animeAllEpisodesBefore : Bool
  mangaAllChaptersBefore : Bool
deriving DecidableEq, Repr

/-- The flat record pushed onto `updates` (the shape of the `variables`
object literal at lines 287-296). -/
structure UpdateRecord where
  metadataId : Int
  progress : Int
  date : Option String
  showSeasonNumber : Option Int
  showEpisodeNumber : Option Int
  podcastEpisodeNumber : Option Int
  animeEpisodeNumber : Option Int
  mangaChapterNumber : Option Int
deriving DecidableEq, Repr

/-- JavaScript truthiness of an optional number: `undefined` and `0` are
falsy, every other number is truthy (`if (submission.animeEpisodeNumber)`). -/
def jsTruthy : Option Int → Bool
  | none => false
  | some n => decide (n ≠ 0)

/-- The `variables` object built at lines 287-296: the submission's flat
fields with `progress` pinned to `100`. -/
def mkVariables (s : Submission) : UpdateRecord :=
  { metadataId := s.metadataId
    progress := 100
    date := s.date
    showSeasonNumber := s.showSeasonNumber
    showEpisodeNumber := s.showEpisodeNumber
    podcastEpisodeNumber := s.podcastEpisodeNumber
    animeEpisodeNumber := s.animeEpisodeNumber
    mangaChapterNumber := s.mangaChapterNumber }

/-- The index list of the loop `for (let i = 1; i <= n; i++)`: `1, …, n`
(empty when `n ≤ 0`). -/
def intRange1 (n : Int) : List Int :=
  (List.range n.toNat).map (fun (i : Nat) => (i : Int) + 1)

/-- Records pushed for one season at lines 333-341 and 351-360: one per
episode, overriding `showSeasonNumber` and `showEpisodeNumber`. -/
def seasonRecords (v : UpdateRecord) (t : SeasonEntry) : List UpdateRecord :=
  t.episodes.map fun e =>
    { v with showSeasonNumber := some t.seasonNumber, showEpisodeNumber := some e }

/-- The `showAllSeasonsBefore` loop at lines 351-360: walk the seasons in
structure order, `break` at the first season whose number exceeds the target,
and append one record per episode of each visited season. -/
def allSeasonsBeforeLoop (v : UpdateRecord) (target : Int) : List SeasonEntry → List UpdateRecord
  | [] => []
  | t :: rest =>
    if t.seasonNumber > target then []
    else seasonRecords v t ++ allSeasonsBeforeLoop v target rest

/-- The anime block at lines 305-317: when the lot is `Anime`, the episode
number is truthy and `animeAllEpisodesBefore` is set, push one record per
episode `1, …, n`; otherwise this block pushes nothing. -/
def animeUpdates (v : UpdateRecord) (s : Submission) : List UpdateRecord :=
  if s.metadataLot = MetadataLot.Anime ∧ jsTruthy s.animeEpisodeNumber ∧ s.animeAllEpisodesBefore then
    (intRange1 (s.animeEpisodeNumber.getD 0)).map fun i => { v with animeEpisodeNumber := some i }
  else []

/-- The manga block at lines 318-330, symmetric to the anime block. -/
def mangaUpdates (v : UpdateRecord) (s : Submission) : List UpdateRecord :=
  if s.metadataLot = MetadataLot.Manga ∧ jsTruthy s.mangaChapterNumber ∧ s.mangaAllChaptersBefore then
    (intRange1 (s.mangaChapterNumber.getD 0)).map fun i => { v with mangaChapterNumber := some i }
  else []

/-- The `completeShow` block at lines 332-343: one record per
(season, episode) pair in structure order. -/
def completeShowUpdates (v : UpdateRecord) (s : Submission) (sh : List SeasonEntry) : List UpdateRecord :=
  if s.metadataLot = MetadataLot.Show ∧ s.completeShow then
    sh.flatMap (seasonRecords v)
  else []

/-- The `onlySeason` block at lines 344-369.  `find` compares each season
number with `submission.showSeasonNumber` using `===` (false when the
submitted number is `undefined`); a failed lookup hits
`invariant(selectedSeason, "No season selected")`, which throws before
anything is submitted. -/
def onlySeasonUpdates (v : UpdateRecord) (s : Submission) (sh : List SeasonEntry) : Except String (List UpdateRecord) :=
  if s.metadataLot = MetadataLot.Show ∧ s.onlySeason then
    match sh.find? (fun t => decide (some t.seasonNumber = s.showSeasonNumber)) with
    | none => Except.error "No season selected"
    | some selectedSeason =>
      if s.showAllSeasonsBefore then
        Except.ok (allSeasonsBeforeLoop v selectedSeason.seasonNumber sh)
      else
        Except.ok (selectedSeason.episodes.map fun e => { v with showEpisodeNumber := some e })
  else Except.ok []

/-- The `completePodcast` block at lines 371-381: one record per podcast
episode in structure order. -/
def completePodcastUpdates (v : UpdateRecord) (s : Submission) (pc : List PodcastEntry) : List UpdateRecord :=
  if s.metadataLot = MetadataLot.Podcast ∧ s.completePodcast then
    pc.map fun e => { v with podcastEpisodeNumber := some e.episodeNumber }
  else []

/-- The value of the `needsFinalUpdate` flag after all blocks ran: it starts
`true` and is set to `false` exactly by the five block conditions that reach a
`needsFinalUpdate = false` statement (`onlySeason` sets it after a successful
season lookup, but a failed lookup throws, so on the non-error path the flag
only depends on the conditions below). -/
def needsFinalUpdate (s : Submission) : Bool :=
  if (s.metadataLot = MetadataLot.Anime ∧ jsTruthy s.animeEpisodeNumber ∧ s.animeAllEpisodesBefore)
      ∨ (s.metadataLot = MetadataLot.Manga ∧ jsTruthy s.mangaChapterNumber ∧ s.mangaAllChaptersBefore)
      ∨ (s.metadataLot = MetadataLot.Show ∧ s.completeShow)
      ∨ (s.metadataLot = MetadataLot.Show ∧ s.onlySeason)
      ∨ (s.metadataLot = MetadataLot.Podcast ∧ s.completePodcast)
  then false else true

/-- The whole `progressUpdate` batch expansion (lines 285-382): run the
blocks in source order over the shared `updates` list, then append the single
`variables` record when `needsFinalUpdate` survived.  The only failure is the
`invariant` throw inside the `onlySeason` block. -/
def progressUpdate (s : Submission) (sh : List SeasonEntry) (pc : List PodcastEntry) :
    Except String (List UpdateRecord) :=
  let v := mkVariables s
  match onlySeasonUpdates v s sh with
  | Except.error e => Except.error e
  | Except.ok osu =>
    Except.ok (animeUpdates v s ++ mangaUpdates v s ++ completeShowUpdates v s sh
      ++ osu ++ completePodcastUpdates v s pc
      ++ (if needsFinalUpdate s then [v] else []))

/-- The action including the structure parse defaulting of lines 299-304:
`JSON.parse(submission.showSpecifics || "[]")` turns a missing structure
string into the empty structure (the JSON decoding of a present, well-formed
structure string is abstracted: the parameter carries the decoded list). -/
def progressUpdateAction (s : Submission) (sh : Option (List SeasonEntry))
    (pc : Option (List PodcastEntry)) : Except String (List UpdateRecord) :=
  progressUpdate s (sh.getD []) (pc.getD [])

/-- `true` exactly on the error case: the expansion threw before submission. -/
def isErr {ε α : Type} : Except ε α → Bool
  | Except.error _ => true
  | Except.ok _ => false

/-! ## A model of JavaScript's `JSON.parse`

The `StrongApp` branch of `deployImport` calls the built-in `JSON.parse` on
the submitted `mapping` string (line 133 of
`_dashboard.settings.imports-and-exports._index.tsx`).  The built-in is not
repository code, so it is modelled here as a total recursive-descent parser
of the JSON grammar (fuel-based for totality; numbers are kept as their
lexeme, since no claim inspects a numeric value). -/

/-- A parsed JSON value. -/
inductive Json where
  | null
  | bool (b : Bool)
  | num (lexeme : String)
  | str (s : String)
  | arr (elems : List Json)
  | obj (members : List (String × Json))
deriving Repr

/-- The double-quote character. -/
def quoteChar : Char := Char.ofNat 34

/-- The backslash character. -/
def backslashChar : Char := Char.ofNat 92

/-- The opening-brace character. -/
def lbraceChar : Char := Char.ofNat 123

/-- The closing-brace character. -/
def rbraceChar : Char := Char.ofNat 125

/-- JSON insignificant whitespace. -/
def isJsonWs (c : Char) : Bool :=
  c = ' ' || c = Char.ofNat 9 || c = Char.ofNat 10 || c = Char.ofNat 13

/-- Drop leading JSON whitespace. -/
def skipWs : List Char → List Char
  | [] => []
  | c :: cs => if isJsonWs c then skipWs cs else c :: cs

/-- Value of one hexadecimal digit. -/
def hexVal (c : Char) : Option Nat :=
  if '0' ≤ c ∧ c ≤ '9' then some (c.toNat - '0'.toNat)
  else if 'a' ≤ c ∧ c ≤ 'f' then some (c.toNat - 'a'.toNat + 10)
  else if 'A' ≤ c ∧ c ≤ 'F' then some (c.toNat - 'A'.toNat + 10)
  else none

/-- Decode one escape sequence after a backslash; returns the decoded
character and the input remaining after it. -/
def decodeEscape : List Char → Option (Char × List Char)
  | [] => none
  | e :: rest =>
    if e = quoteChar then some (quoteChar, rest)
    else if e = backslashChar then some (backslashChar, rest)
    else if e = '/' then some ('/', rest)
    else if e = 'n' then some (Char.ofNat 10, rest)
    else if e = 't' then some (Char.ofNat 9, rest)
    else if e = 'r' then some (Char.ofNat 13, rest)
    else if e = 'b' then some (Char.ofNat 8, rest)
    else if e = 'f' then some (Char.ofNat 12, rest)
    else if e = 'u' then
      match rest with
      | a :: b :: c :: d :: rest2 =>
        match hexVal a, hexVal b, hexVal c, hexVal d with
        | some va, some vb, some vc, some vd =>
          some (Char.ofNat (((va * 16 + vb) * 16 + vc) * 16 + vd), rest2)
        | _, _, _, _ => none
      | _ => none
    else none

/-- Parse a string body after the opening quote; fuel-based for totality. -/
def parseStringBody : Nat → List Char → Option (List Char × List Char)
  | 0, _ => none
  | _ + 1, [] => none
  | fuel + 1, c :: rest =>
    if c = quoteChar then some ([], rest)
    else if c = backslashChar then
      match decodeEscape rest with
      | none => none
      | some (ch, rest2) =>
        (parseStringBody fuel rest2).map fun pr => (ch :: pr.1, pr.2)
    else if c.toNat < 32 then none
    else (parseStringBody fuel rest).map fun pr => (c :: pr.1, pr.2)

/-- Span of leading decimal digits. -/
def takeDigits (l : List Char) : List Char × List Char :=
  l.span Char.isDigit

/-- Parse the lexeme of a JSON number: an optional minus sign, an integer
part without superfluous leading zeros, an optional fraction and an optional
exponent. -/
def parseNumberLexeme (l : List Char) : Option (List Char × List Char) :=
  let (sign, l1) := match l with
    | '-' :: r => (['-'], r)
    | _ => (([] : List Char), l)
  match l1 with
  | [] => none
  | c :: r =>
    if ¬ c.isDigit then none
    else if c == '0' && (match r with | d :: _ => d.isDigit | [] => false) then none
    else
      let (ds, r2) := takeDigits r
      let intPart := c :: ds
      let fracStep : Option (List Char × List Char) :=
        match r2 with
        | '.' :: r3 =>
          let (fs, r4) := takeDigits r3
          if fs.isEmpty then none else some ('.' :: fs, r4)
        | _ => some ([], r2)
      match fracStep with
      | none => none
      | some (fracPart, r5) =>
        let expStep : Option (List Char × List Char) :=
          match r5 with
          | e :: r6 =>
            if e = 'e' ∨ e = 'E' then
              let (esign, r7) := match r6 with
                | s :: r8 => if s = '+' ∨ s = '-' then ([s], r8) else (([] : List Char), r6)
                | [] => (([] : List Char), r6)
              let (es, r9) := takeDigits r7
              if es.isEmpty then none else some (e :: esign ++ es, r9)
            else some ([], r5)
          | [] => some ([], [])
        match expStep with
        | none => none
        | some (expPart, r10) => some (sign ++ intPart ++ fracPart ++ expPart, r10)

/-- Match an expected literal tail (for `null`, `true`, `false`). -/
def expectChars : List Char → List Char → Option (List Char)
  | [], l => some l
  | c :: cs, d :: l => if c = d then expectChars cs l else none
  | _ :: _, [] => none

mutual

/-- Parse one JSON value (after optional leading whitespace). -/
def parseValue : Nat → List Char → Option (Json × List Char)
  | 0, _ => none
  | fuel + 1, l =>
    match skipWs l with
    | [] => none
    | c :: rest =>
      if c = 'n' then (expectChars ['u', 'l', 'l'] rest).map fun r => (Json.null, r)
      else if c = 't' then (expectChars ['r', 'u', 'e'] rest).map fun r => (Json.bool true, r)
      else if c = 'f' then (expectChars ['a', 'l', 's', 'e'] rest).map fun r => (Json.bool false, r)
      else if c = quoteChar then
        (parseStringBody (fuel + 1) rest).map fun pr => (Json.str (String.mk pr.1), pr.2)
      else if c = '[' then
        match skipWs rest with
        | ']' :: r => some (Json.arr [], r)
        | l2 =>
          match parseValue fuel l2 with
          | none => none
          | some (v, r2) =>
            match parseArrayRest fuel r2 with
            | none => none
            | some (vs, r3) => some (Json.arr (v :: vs), r3)
      else if c = lbraceChar then
        match skipWs rest with
        | d :: r =>
          if d = rbraceChar then some (Json.obj [], r)
          else
            match parseMember fuel (d :: r) with
            | none => none
            | some (m, r2) =>
              match parseObjectRest fuel r2 with
              | none => none
              | some (ms, r3) => some (Json.obj (m :: ms), r3)
        | [] => none
      else if c = '-' ∨ c.isDigit then
        (parseNumberLexeme (c :: rest)).map fun pr => (Json.num (String.mk pr.1), pr.2)
      else none

/-- Parse the remainder of an array after its first element: a comma and a
further element, repeatedly, then the closing bracket. -/
def parseArrayRest : Nat → List Char → Option (List Json × List Char)
  | 0, _ => none
  | fuel + 1, l =>
    match skipWs l with
    | ',' :: r =>
      match parseValue fuel r with
      | none => none
      | some (v, r2) =>
        match parseArrayRest fuel r2 with
        | none => none
        | some (vs, r3) => some (v :: vs, r3)
    | ']' :: r => some ([], r)
    | _ => none

/-- Parse one object member: a quoted key, a colon and a value. -/
def parseMember : Nat → List Char → Option ((String × Json) × List Char)
  | 0, _ => none
  | fuel + 1, l =>
    match skipWs l with
    | c :: rest =>
      if c = quoteChar then
        match parseStringBody (fuel + 1) rest with
        | none => none
        | some (key, r1) =>
          match skipWs r1 with
          | ':' :: r2 =>
            match parseValue fuel r2 with
            | none => none
            | some (v, r3) => some ((String.mk key, v), r3)
          | _ => none
      else none
    | [] => none

/-- Parse the remainder of an object after its first member. -/
def parseObjectRest : Nat → List Char → Option (List (String × Json) × List Char)
  | 0, _ => none
  | fuel + 1, l =>
    match skipWs l with
    | ',' :: r =>
      match parseMember fuel r with
      | none => none
      | some (m, r2) =>
        match parseObjectRest fuel r2 with
        | none => none
        | some (ms, r3) => some (m :: ms, r3)
    | d :: r => if d = rbraceChar then some ([], r) else none
    | [] => none

end

/-- The model of `JSON.parse`: parse one value and require only whitespace
after it; `none` models the thrown `SyntaxError`. -/
def Json.parse (s : String) : Option Json :=
  match parseValue (2 * s.data.length + 2) s.data with
  | some (v, rest) => if (skipWs rest).isEmpty then some v else none
  | none => none

/-! ## Import payload dispatch

Embedding of the `deployImport` action of
`_dashboard.settings.imports-and-exports._index.tsx` (lines 97-157) and its
per-source zod form schemas (lines 175-207). -/

/-- The `ImportSource` GraphQL enumeration, exactly the variants the
`match(source)` at lines 99-145 covers. -/
inductive ImportSource where
  | Goodreads
  | Trakt
  | Audiobookshelf
  | MediaTracker
  | Movary
  | StoryGraph
  | Mal
  | StrongApp
  | MediaJson
  | PeopleJson
  | WorkoutsJson
  | MeasurementsJson
deriving DecidableEq, Repr

/-- The tagged union of payload variants built by the `match`: each
constructor is one object key of the `values` object (the four `*Json`
sources share the `json` variant).  `jsonExport` carries the `export` field
of `jsonImportFormSchema`. -/
inductive ImportPayload where
  | goodreads (csvPath : String)
  | trakt (username : String)
  | audiobookshelf (apiUrl apiKey : String)
  | mediaTracker (apiUrl apiKey : String)
  | movary (ratings history watchlist : String)
  | storyGraph (exportFile : String)
  | mal (animePath mangaPath : String)
  | strongApp (exportPath : String) (mapping : Json)
  | jsonExport (exportFile : String)
deriving Repr

/-- How a dispatch fails before any submission.  `validation` models the
field-tagged schema failure thrown by `processSubmission` (a helper outside
this excerpt; modelled from the spec's `ValidationError` with `field` and
`reason`).  `badJson` models the untagged `SyntaxError` thrown by the bare
`JSON.parse(newLocal.mapping)` call at line 133, which is not produced by
schema validation and carries no field. -/
inductive DispatchError where
  | validation (field reason : String)
  | badJson (input : String)
deriving DecidableEq, Repr

/-- The flat multipart form fields, as name/value pairs. -/
abbrev FormData := List (String × String)

/-- `formData.get(name)`: first value under the name, if any. -/
def lookupField (fd : FormData) (name : String) : Option String :=
  (fd.find? fun p => p.1 == name).map fun p => p.2

/-- Modelled from the spec: `processSubmission` with a zod object schema
requires each named field to be present; a missing field yields the
field-tagged `ValidationError`. -/
def requireField (fd : FormData) (name : String) : Except DispatchError String :=
  match lookupField fd name with
  | some v => Except.ok v
  | none => Except.error (DispatchError.validation name "Required")

/-- Split a character list at the first `://`, returning the scheme part and
the remainder. -/
def splitScheme : List Char → Option (List Char × List Char)
  | [] => none
  | ':' :: '/' :: '/' :: rest => some ([], rest)
  | c :: rest => (splitScheme rest).map fun pr => (c :: pr.1, pr.2)

/-- Modelled from the spec: zod's `z.string().url()` well-formed-URL check
(library code outside the excerpt).  Accepts `scheme://rest` with a nonempty
alphabetic scheme and a nonempty, space-free remainder. -/
def isValidUrl (s : String) : Bool :=
  match splitScheme s.data with
  | some (scheme, rest) =>
    !scheme.isEmpty && scheme.all Char.isAlpha
      && !rest.isEmpty && rest.all fun c => c ≠ ' '
  | none => false

/-- A required field that must additionally pass the URL format check
(`z.string().url()`). -/
def requireUrlField (fd : FormData) (name : String) : Except DispatchError String :=
  match requireField fd name with
  | Except.error e => Except.error e
  | Except.ok v =>
    if isValidUrl v then Except.ok v
    else Except.error (DispatchError.validation name "Invalid url")

/-- The `deployImport` dispatch (lines 98-145): an exhaustive match over
`ImportSource` that validates the source's form schema and shapes exactly one
payload variant.  The `StrongApp` arm additionally runs `JSON.parse` on the
`mapping` string after schema validation succeeded. -/
def dispatch (source : ImportSource) (fd : FormData) : Except DispatchError ImportPayload :=
  match source with
  | ImportSource.Goodreads =>
    (requireField fd "csvPath").map ImportPayload.goodreads
  | ImportSource.Trakt =>
    (requireField fd "username").map ImportPayload.trakt
  | ImportSource.Audiobookshelf =>
    match requireUrlField fd "apiUrl" with
    | Except.error e => Except.error e
    | Except.ok apiUrl => (requireField fd "apiKey").map (ImportPayload.audiobookshelf apiUrl)
  | ImportSource.MediaTracker =>
    match requireUrlField fd "apiUrl" with
    | Except.error e => Except.error e
    | Except.ok apiUrl => (requireField fd "apiKey").map (ImportPayload.mediaTracker apiUrl)
  | ImportSource.Movary =>
    match requireField fd "ratings" with
    | Except.error e => Except.error e
    | Except.ok ratings =>
      match requireField fd "history" with
      | Except.error e => Except.error e
      | Except.ok history =>
        (requireField fd "watchlist").map (ImportPayload.movary ratings history)
  | ImportSource.StoryGraph =>
    (requireField fd "export").map ImportPayload.storyGraph
  | ImportSource.Mal =>
    match requireField fd "animePath" with
    | Except.error e => Except.error e
    | Except.ok animePath =>
      (requireField fd "mangaPath").map (ImportPayload.mal animePath)
  | ImportSource.StrongApp =>
    match requireField fd "exportPath" with
    | Except.error e => Except.error e
    | Except.ok exportPath =>
      match requireField fd "mapping" with
      | Except.error e => Except.error e
      | Except.ok mapping =>
        match Json.parse mapping with
        | some j => Except.ok (ImportPayload.strongApp exportPath j)
        | none => Except.error (DispatchError.badJson mapping)
  | ImportSource.MediaJson =>
    (requireField fd "export").map ImportPayload.jsonExport
  | ImportSource.PeopleJson =>
    (requireField fd "export").map ImportPayload.jsonExport
  | ImportSource.WorkoutsJson =>
    (requireField fd "export").map ImportPayload.jsonExport
  | ImportSource.MeasurementsJson =>
    (requireField fd "export").map ImportPayload.jsonExport

/-- The object key under which the `match` arm files its payload (the
variant name of the tagged union). -/
def payloadKey : ImportPayload → String
  | ImportPayload.goodreads _ => "goodreads"
  | ImportPayload.trakt _ => "trakt"
  | ImportPayload.audiobookshelf _ _ => "audiobookshelf"
  | ImportPayload.mediaTracker _ _ => "mediaTracker"
  | ImportPayload.movary _ _ _ => "movary"
  | ImportPayload.storyGraph _ => "storyGraph"
  | ImportPayload.mal _ _ => "mal"
  | ImportPayload.strongApp _ _ => "strongApp"
  | ImportPayload.jsonExport _ => "json"

/-- The variant key each source must produce (the four `*Json` sources share
the `json` variant, matching the shared match arm at lines 136-144). -/
def sourceKey : ImportSource → String
  | ImportSource.Goodreads => "goodreads"
  | ImportSource.Trakt => "trakt"
  | ImportSource.Audiobookshelf => "audiobookshelf"
  | ImportSource.MediaTracker => "mediaTracker"
  | ImportSource.Movary => "movary"
  | ImportSource.StoryGraph => "storyGraph"
  | ImportSource.Mal => "mal"
  | ImportSource.StrongApp => "strongApp"
  | ImportSource.MediaJson => "json"
  | ImportSource.PeopleJson => "json"
  | ImportSource.WorkoutsJson => "json"
  | ImportSource.MeasurementsJson => "json"

/-- The variant key of a successful dispatch, `none` on failure. -/
def okPayloadKey : Except DispatchError ImportPayload → Option String
  | Except.ok p => some (payloadKey p)
  | Except.error _ => none

/-- `true` exactly when the dispatch failed with a field-tagged schema
validation error (as opposed to succeeding or throwing a JSON syntax
failure). -/
def isValidationErr : Except DispatchError ImportPayload → Bool
  | Except.error (DispatchError.validation _ _) => true
  | _ => false

/-- A fully-populated valid field set for each source, with every required
field of the source's schema present, URLs well formed and the `StrongApp`
mapping valid JSON. -/
def validFields : ImportSource → FormData
  | ImportSource.Goodreads => [("csvPath", "books.csv")]
  | ImportSource.Trakt => [("username", "someuser")]
  | ImportSource.Audiobookshelf => [("apiUrl", "https://abs.example.com"), ("apiKey", "key1")]
  | ImportSource.MediaTracker => [("apiUrl", "https://mt.example.com"), ("apiKey", "key2")]
  | ImportSource.Movary => [("ratings", "r.csv"), ("history", "h.csv"), ("watchlist", "w.csv")]
  | ImportSource.StoryGraph => [("export", "storygraph.csv")]
  | ImportSource.Mal => [("animePath", "anime.xml"), ("mangaPath", "manga.xml")]
  | ImportSource.StrongApp => [("exportPath", "strong.csv"), ("mapping", "[]")]
  | ImportSource.MediaJson => [("export", "media.json")]
  | ImportSource.PeopleJson => [("export", "people.json")]
  | ImportSource.WorkoutsJson => [("export", "workouts.json")]
  | ImportSource.MeasurementsJson => [("export", "measurements.json")]

/-! ## Concrete sample data used by witnesses and counterexamples -/

/-- A baseline submission: every optional number absent, every flag off. -/
def baseSub : Submission :=
  { metadataId := 7
    metadataLot := MetadataLot.Show
    date := some "2024-01-01"
    showSeasonNumber := none
    showEpisodeNumber := none
    podcastEpisodeNumber := none
    animeEpisodeNumber := none
    mangaChapterNumber := none
    showAllSeasonsBefore := false
    onlySeason := false
    completeShow := false
    completePodcast := false
    animeAllEpisodesBefore := false
    mangaAllChaptersBefore := false }

/-- The spec's worked structure: seasons 1, 2, 3 with episode lists
`[1,2]`, `[1]`, `[1,2,3]`. -/
def showStruct3 : List SeasonEntry := [⟨1, [1, 2]⟩, ⟨2, [1]⟩, ⟨3, [1, 2, 3]⟩]

/-- A structure whose season 1 has one episode and whose season 2 is empty. -/
def showStructEmpty2 : List SeasonEntry := [⟨1, [1]⟩, ⟨2, []⟩]

/-- An Anime submission asking for episode 5 with `allBefore` set. -/
def subAnime5 : Submission :=
  { baseSub with
    metadataLot := MetadataLot.Anime
    animeEpisodeNumber := some 5
    animeAllEpisodesBefore := true }

/-- An Anime submission with episode number 0 (falsy) and `allBefore` set. -/
def subAnime0 : Submission :=
  { baseSub with
    metadataLot := MetadataLot.Anime
    animeEpisodeNumber := some 0
    animeAllEpisodesBefore := true }

/-- A `ShowSeason` submission targeting season 2 with `allSeasonsBefore`
set. -/
def subSeason2Before : Submission :=
  { baseSub with
    onlySeason := true
    showAllSeasonsBefore := true
    showSeasonNumber := some 2 }

/-- A `ShowEpisode` submission referencing season 5, episode 7 (neither of
which exists anywhere: the structure will be absent). -/
def subEpisode57 : Submission :=
  { baseSub with
    showSeasonNumber := some 5
    showEpisodeNumber := some 7 }

/-- A `ShowSeason` submission targeting season 1 (to be run against an empty
structure). -/
def subSeason1Only : Submission :=
  { baseSub with
    onlySeason := true
    showSeasonNumber := some 1 }

end Ryot

namespace Ryot

/-! ## Helper lemmas -/

/-- The early-terminating season walk is the `takeWhile` prefix of the
structure (every season up to the first one whose number exceeds the target),
expanded season by season. -/
theorem allSeasonsBeforeLoop_eq_takeWhile (v : UpdateRecord) (target : Int) :
    ∀ l : List SeasonEntry, allSeasonsBeforeLoop v target l =
      (l.takeWhile fun t => !decide (t.seasonNumber > target)).flatMap (seasonRecords v)
  | [] => rfl
  | t :: rest => by
    by_cases hc : t.seasonNumber > target
    · simp [allSeasonsBeforeLoop, List.takeWhile_cons, hc]
    · simp [allSeasonsBeforeLoop, List.takeWhile_cons, hc,
        allSeasonsBeforeLoop_eq_takeWhile v target rest]

/-- When the submission is not a `Show` `onlySeason` request, the
`onlySeason` block contributes nothing and cannot throw. -/
theorem onlySeasonUpdates_inactive (v : UpdateRecord) (s : Submission) (sh : List SeasonEntry)
    (h : ¬(s.metadataLot = MetadataLot.Show ∧ s.onlySeason = true)) :
    onlySeasonUpdates v s sh = Except.ok [] := by
  unfold onlySeasonUpdates
  rw [if_neg h]

/-! ## Claim theorems -/

/-- Claim C3: for every Show structure and a `ShowComplete` intent
(`completeShow` set, `onlySeason` unset), the expansion returns exactly one
record per (season, episode) pair in structure order — the `flatMap` of the
per-season records — and its length is the sum of the episode counts, with no
additional final record appended. -/
theorem claim_C3_showComplete (s : Submission) (sh : List SeasonEntry) (pc : List PodcastEntry)
    (hLot : s.metadataLot = MetadataLot.Show) (hCS : s.completeShow = true)
    (hOS : s.onlySeason = false) :
    progressUpdate s sh pc = Except.ok (sh.flatMap (seasonRecords (mkVariables s))) ∧
      (sh.flatMap (seasonRecords (mkVariables s))).length
        = (sh.map fun t => t.episodes.length).sum := by
  constructor
  · have hosu : onlySeasonUpdates (mkVariables s) s sh = Except.ok [] :=
      onlySeasonUpdates_inactive _ _ _ (by simp [hOS])
    simp only [progressUpdate, hosu]
    simp [animeUpdates, mangaUpdates, completeShowUpdates, completePodcastUpdates,
      needsFinalUpdate, hLot, hCS, hOS]
  · simp [List.length_flatMap, Function.comp_def, seasonRecords]

/-- Claim C3 witness: the spec's three-season structure yields the six
records of all (season, episode) pairs, and 6 = 2 + 1 + 3. -/
theorem claim_C3_witness :
    progressUpdate { baseSub with completeShow := true } showStruct3 []
        = Except.ok (showStruct3.flatMap (seasonRecords (mkVariables { baseSub with completeShow := true }))) ∧
      (showStruct3.flatMap (seasonRecords (mkVariables { baseSub with completeShow := true }))).length
        = (showStruct3.map fun t => t.episodes.length).sum :=
  claim_C3_showComplete { baseSub with completeShow := true } showStruct3 [] rfl rfl rfl

/-- Claim C6: for an Anime intent with episode number `n ≥ 1`, if
`animeAllEpisodesBefore` is set the expansion is exactly `n` records whose
`animeEpisodeNumber` fields are `1, 2, …, n` in ascending order and nothing
else; if it is unset the expansion is exactly the single `variables` record,
whose `animeEpisodeNumber` is `n`. -/
theorem claim_C6_animeAllBefore (s : Submission) (sh : List SeasonEntry) (pc : List PodcastEntry)
    (n : Int) (hLot : s.metadataLot = MetadataLot.Anime)
    (hEp : s.animeEpisodeNumber = some n) (hn : 1 ≤ n) :
    (s.animeAllEpisodesBefore = true →
      ∃ l, progressUpdate s sh pc = Except.ok l ∧ l.length = n.toNat ∧
        l.map (fun r => r.animeEpisodeNumber) = (intRange1 n).map (fun i => some i)) ∧
    (s.animeAllEpisodesBefore = false →
      progressUpdate s sh pc = Except.ok [mkVariables s] ∧
        (mkVariables s).animeEpisodeNumber = some n) := by
  have hosu : onlySeasonUpdates (mkVariables s) s sh = Except.ok [] :=
    onlySeasonUpdates_inactive _ _ _ (by simp [hLot])
  have htr : jsTruthy (some n) = true := by
    simp only [jsTruthy, decide_eq_true_eq]; omega
  constructor
  · intro hAll
    refine ⟨(intRange1 n).map fun i => { mkVariables s with animeEpisodeNumber := some i }, ?_, ?_, ?_⟩
    · simp only [progressUpdate, hosu]
      simp [animeUpdates, mangaUpdates, completeShowUpdates, completePodcastUpdates,
        needsFinalUpdate, hLot, hAll, htr, hEp]
    · rw [List.length_map, intRange1, List.length_map, List.length_range]
    · simp [List.map_map, Function.comp_def]
  · intro hAll
    refine ⟨?_, by simp [mkVariables, hEp]⟩
    simp only [progressUpdate, hosu]
    simp [animeUpdates, mangaUpdates, completeShowUpdates, completePodcastUpdates,
      needsFinalUpdate, hLot, hAll, htr, hEp]

/-- Claim C6 witness: episode 5 with the flag set yields animeEpisode
1,2,3,4,5 and nothing else (the theorem instantiated at `subAnime5`). -/
theorem claim_C6_witness :
    ∃ l, progressUpdate subAnime5 [] [] = Except.ok l ∧ l.length = (5 : Int).toNat ∧
      l.map (fun r => r.animeEpisodeNumber) = (intRange1 5).map (fun i => some i) :=
  (claim_C6_animeAllBefore subAnime5 [] [] 5 rfl rfl (by decide)).1 rfl

/-- Claim C10: for an Anime (resp. Manga) intent whose episode (resp.
chapter) number is absent or `0` — both falsy in JavaScript — the expansion
is exactly the single record of the flat fields, whatever the `allBefore`
flag says. -/
theorem claim_C10_falsyNumber (s : Submission) (sh : List SeasonEntry) (pc : List PodcastEntry)
    (h : (s.metadataLot = MetadataLot.Anime ∧
            (s.animeEpisodeNumber = none ∨ s.animeEpisodeNumber = some 0))
       ∨ (s.metadataLot = MetadataLot.Manga ∧
            (s.mangaChapterNumber = none ∨ s.mangaChapterNumber = some 0))) :
    progressUpdate s sh pc = Except.ok [mkVariables s] := by
  rcases h with ⟨hLot, hEp⟩ | ⟨hLot, hEp⟩
  · have hosu : onlySeasonUpdates (mkVariables s) s sh = Except.ok [] :=
      onlySeasonUpdates_inactive _ _ _ (by simp [hLot])
    have htr : jsTruthy s.animeEpisodeNumber = false := by
      rcases hEp with h1 | h1 <;> simp [h1, jsTruthy]
    simp only [progressUpdate, hosu]
    simp [animeUpdates, mangaUpdates, completeShowUpdates, completePodcastUpdates,
      needsFinalUpdate, hLot, htr]
  · have hosu : onlySeasonUpdates (mkVariables s) s sh = Except.ok [] :=
      onlySeasonUpdates_inactive _ _ _ (by simp [hLot])
    have htr : jsTruthy s.mangaChapterNumber = false := by
      rcases hEp with h1 | h1 <;> simp [h1, jsTruthy]
    simp only [progressUpdate, hosu]
    simp [animeUpdates, mangaUpdates, completeShowUpdates, completePodcastUpdates,
      needsFinalUpdate, hLot, htr]

/-- Claim C10 witness: an Anime intent with episode number 0 and the
`allBefore` flag set still produces the single flat record. -/
theorem claim_C10_witness :
    progressUpdate subAnime0 [] [] = Except.ok [mkVariables subAnime0] :=
  claim_C10_falsyNumber subAnime0 [] [] (Or.inl ⟨rfl, Or.inr rfl⟩)

/-- Claim C1: for a `ShowSeason` intent with `allSeasonsBefore` set whose
target season number is found in the structure, the expansion walks the
seasons in structure order, appends one record per episode of each visited
season, and stops at the first season whose number exceeds the target: the
result is exactly the `takeWhile` prefix of the structure expanded season by
season, so seasons after the first exceeding one are never visited even if
their numbers are ≤ the target.  The witness below instantiates the spec's
example: seasons `[1,2,3]`, episodes `[1,2]`, `[1]`, `[1,2,3]`, target 2. -/
theorem claim_C1_allSeasonsBefore (s : Submission) (sh : List SeasonEntry)
    (pc : List PodcastEntry) (sel : SeasonEntry)
    (hLot : s.metadataLot = MetadataLot.Show) (hCS : s.completeShow = false)
    (hOS : s.onlySeason = true) (hAll : s.showAllSeasonsBefore = true)
    (hFind : sh.find? (fun t => decide (some t.seasonNumber = s.showSeasonNumber)) = some sel) :
    s.showSeasonNumber = some sel.seasonNumber ∧
    progressUpdate s sh pc =
      Except.ok ((sh.takeWhile fun t => !decide (t.seasonNumber > sel.seasonNumber)).flatMap
        (seasonRecords (mkVariables s))) := by
  have hpred := List.find?_some hFind
  have hsn : some sel.seasonNumber = s.showSeasonNumber := by simpa using hpred
  refine ⟨hsn.symm, ?_⟩
  have hosu : onlySeasonUpdates (mkVariables s) s sh
      = Except.ok (allSeasonsBeforeLoop (mkVariables s) sel.seasonNumber sh) := by
    unfold onlySeasonUpdates
    rw [if_pos ⟨hLot, hOS⟩, hFind]
    simp only [if_pos hAll]
  simp only [progressUpdate, hosu]
  rw [allSeasonsBeforeLoop_eq_takeWhile]
  simp [animeUpdates, mangaUpdates, completeShowUpdates, completePodcastUpdates,
    needsFinalUpdate, hLot, hCS, hOS]

/-- Claim C1 witness: the spec's worked example — target season 2 over
seasons 1, 2, 3 with episodes `[1,2]`, `[1]`, `[1,2,3]` — yields exactly the
three records (s1,e1), (s1,e2), (s2,e1) in that order; season 3 is never
expanded. -/
theorem claim_C1_witness :
    subSeason2Before.showSeasonNumber = some (2 : Int) ∧
    progressUpdate subSeason2Before showStruct3 []
      = Except.ok
          [{ mkVariables subSeason2Before with showSeasonNumber := some 1, showEpisodeNumber := some 1 },
           { mkVariables subSeason2Before with showSeasonNumber := some 1, showEpisodeNumber := some 2 },
           { mkVariables subSeason2Before with showSeasonNumber := some 2, showEpisodeNumber := some 1 }] := by
  have h := claim_C1_allSeasonsBefore subSeason2Before showStruct3 [] ⟨2, [1]⟩ rfl rfl rfl rfl rfl
  exact ⟨h.1, h.2.trans (by rfl)⟩

/-- The expansion fails exactly when the `onlySeason` block fails: every
other block is pure. -/
theorem isErr_progressUpdate (s : Submission) (sh : List SeasonEntry) (pc : List PodcastEntry) :
    isErr (progressUpdate s sh pc) = isErr (onlySeasonUpdates (mkVariables s) s sh) := by
  simp only [progressUpdate]
  cases h : onlySeasonUpdates (mkVariables s) s sh <;> simp [isErr]

/-- The `onlySeason` block fails exactly when the request is a Show
`onlySeason` request whose target season number is not found by the season
lookup. -/
theorem isErr_onlySeasonUpdates (v : UpdateRecord) (s : Submission) (sh : List SeasonEntry) :
    isErr (onlySeasonUpdates v s sh) = true ↔
      (s.metadataLot = MetadataLot.Show ∧ s.onlySeason = true ∧
        sh.find? (fun t => decide (some t.seasonNumber = s.showSeasonNumber)) = none) := by
  unfold onlySeasonUpdates
  by_cases h1 : s.metadataLot = MetadataLot.Show ∧ s.onlySeason = true
  · rw [if_pos h1]
    cases hf : sh.find? (fun t => decide (some t.seasonNumber = s.showSeasonNumber)) with
    | none => simp [isErr, h1, hf]
    | some sel =>
      constructor
      · intro h
        by_cases hAll : s.showAllSeasonsBefore = true <;> simp [isErr, hAll] at h
      · rintro ⟨-, -, hnone⟩
        cases hnone
  · rw [if_neg h1]
    constructor
    · intro h
      simp [isErr] at h
    · rintro ⟨ha, hb, -⟩
      exact absurd ⟨ha, hb⟩ h1

/-- Claim C2 counterexample: a `ShowEpisode` intent referencing season 5,
episode 7, with the structure missing entirely (a `MediaKind` — Show — that
the claim says requires one), is not rejected: the expansion succeeds and
returns the single flat record instead of failing with a validation error. -/
theorem claim_C2_counterexample :
    progressUpdateAction subEpisode57 none none = Except.ok [mkVariables subEpisode57] ∧
      isErr (progressUpdateAction subEpisode57 none none) = false := ⟨rfl, rfl⟩

/-- Claim C2 amended: the expansion fails before any submission exactly when
the intent is a Show `onlySeason` request whose target season number is
absent from the structure, a missing structure being treated as the empty
list (by the `|| "[]"` default).  `ShowEpisode` intents are never validated
against the structure, and a missing structure alone never raises an
error. -/
theorem claim_C2_amended (s : Submission) (sh : Option (List SeasonEntry))
    (pc : Option (List PodcastEntry)) :
    isErr (progressUpdateAction s sh pc) = true ↔
      (s.metadataLot = MetadataLot.Show ∧ s.onlySeason = true ∧
        (sh.getD []).find? (fun t => decide (some t.seasonNumber = s.showSeasonNumber)) = none) := by
  unfold progressUpdateAction
  rw [isErr_progressUpdate]
  exact isErr_onlySeasonUpdates (mkVariables s) s (sh.getD [])

/-- Claim C2 witness: a `ShowSeason` request for season 1 against a missing
structure does fail (the one failure mode that remains). -/
theorem claim_C2_witness :
    isErr (progressUpdateAction subSeason1Only none none) = true :=
  (claim_C2_amended subSeason1Only none none).mpr ⟨rfl, rfl, rfl⟩

/-- Claim C7 counterexample: a `ShowSeason` intent with `allSeasonsBefore`
set targets season 2, which exists and has an empty episode list, over the
structure `[(1,[1]), (2,[])]` — yet the result is the one record for season
1 episode 1, not the empty list the claim demands. -/
theorem claim_C7_counterexample :
    progressUpdate subSeason2Before showStructEmpty2 []
        = Except.ok [{ mkVariables subSeason2Before with
            showSeasonNumber := some 1, showEpisodeNumber := some 1 }] ∧
      (Except.ok [{ mkVariables subSeason2Before with
            showSeasonNumber := some 1, showEpisodeNumber := some 1 }]
          : Except String (List UpdateRecord)) ≠ Except.ok [] := by
  refine ⟨by rfl, ?_⟩
  intro h
  simp at h

/-- Claim C7 amended: the empty result does hold once the `ShowSeason`
intent has `allSeasonsBefore` unset (with `allSeasonsBefore` set, earlier
seasons can still contribute records): a `ShowSeason` intent without
`allSeasonsBefore` targeting an existing season with an empty episode list,
and a `PodcastComplete` intent over an empty episode structure, both return
the empty list without error and without a final whole-item record. -/
theorem claim_C7_amended (s : Submission) (sh : List SeasonEntry) (pc : List PodcastEntry)
    (sel : SeasonEntry)
    (h : (s.metadataLot = MetadataLot.Show ∧ s.completeShow = false ∧ s.onlySeason = true ∧
            s.showAllSeasonsBefore = false ∧
            sh.find? (fun t => decide (some t.seasonNumber = s.showSeasonNumber)) = some sel ∧
            sel.episodes = [])
       ∨ (s.metadataLot = MetadataLot.Podcast ∧ s.completePodcast = true ∧ pc = [])) :
    progressUpdate s sh pc = Except.ok [] := by
  rcases h with ⟨hLot, hCS, hOS, hAll, hFind, hEmpty⟩ | ⟨hLot, hCP, hEmpty⟩
  · have hosu : onlySeasonUpdates (mkVariables s) s sh = Except.ok [] := by
      unfold onlySeasonUpdates
      rw [if_pos ⟨hLot, hOS⟩, hFind]
      simp [hAll, hEmpty]
    simp only [progressUpdate, hosu]
    simp [animeUpdates, mangaUpdates, completeShowUpdates, completePodcastUpdates,
      needsFinalUpdate, hLot, hCS, hOS]
  · have hosu : onlySeasonUpdates (mkVariables s) s sh = Except.ok [] :=
      onlySeasonUpdates_inactive _ _ _ (by simp [hLot])
    simp only [progressUpdate, hosu]
    simp [animeUpdates, mangaUpdates, completeShowUpdates, completePodcastUpdates,
      needsFinalUpdate, hLot, hCP, hEmpty]

/-- Claim C7 witness: season 1 exists with no episodes; targeting it without
`allSeasonsBefore` yields the empty batch with no error and no final
record. -/
theorem claim_C7_witness :
    progressUpdate subSeason1Only [⟨1, []⟩] [] = Except.ok [] :=
  claim_C7_amended subSeason1Only [⟨1, []⟩] [] ⟨1, []⟩
    (Or.inl ⟨rfl, rfl, rfl, rfl, rfl, rfl⟩)

/-- Every record a season expansion pushes agrees with `v` on the common
fields (`metadataId`, `date`, `progress`). -/
theorem mem_seasonRecords_common {v : UpdateRecord} {t : SeasonEntry} {r : UpdateRecord}
    (h : r ∈ seasonRecords v t) :
    r.metadataId = v.metadataId ∧ r.date = v.date ∧ r.progress = v.progress := by
  simp only [seasonRecords, List.mem_map] at h
  obtain ⟨e, -, rfl⟩ := h
  exact ⟨rfl, rfl, rfl⟩

/-- Every record of the early-terminating season walk agrees with `v` on the
common fields. -/
theorem mem_allSeasonsBeforeLoop_common {v : UpdateRecord} {target : Int} {r : UpdateRecord} :
    ∀ {l : List SeasonEntry}, r ∈ allSeasonsBeforeLoop v target l →
      r.metadataId = v.metadataId ∧ r.date = v.date ∧ r.progress = v.progress
  | [], h => by simp [allSeasonsBeforeLoop] at h
  | t :: rest, h => by
    rw [allSeasonsBeforeLoop] at h
    split at h
    · simp at h
    · rcases List.mem_append.mp h with h1 | h2
      · exact mem_seasonRecords_common h1
      · exact mem_allSeasonsBeforeLoop_common h2

/-- Every record the `onlySeason` block produces agrees with `v` on the
common fields. -/
theorem mem_onlySeasonUpdates_common {v : UpdateRecord} {s : Submission}
    {sh : List SeasonEntry} {u : List UpdateRecord} {r : UpdateRecord}
    (h : onlySeasonUpdates v s sh = Except.ok u) (hr : r ∈ u) :
    r.metadataId = v.metadataId ∧ r.date = v.date ∧ r.progress = v.progress := by
  unfold onlySeasonUpdates at h
  split at h
  · split at h
    · cases h
    · split at h
      · cases h
        exact mem_allSeasonsBeforeLoop_common hr
      · cases h
        simp only [List.mem_map] at hr
        obtain ⟨e, -, rfl⟩ := hr
        exact ⟨rfl, rfl, rfl⟩
  · cases h
    cases hr

/-- Claim C8: every record of every successful expansion carries the
intent's common fields unchanged: its `metadataId` equals the submission's,
its `date` equals the submission's, and its `progress` equals 100. -/
theorem claim_C8_commonFields (s : Submission) (sh : List SeasonEntry) (pc : List PodcastEntry)
    (l : List UpdateRecord) (h : progressUpdate s sh pc = Except.ok l) :
    ∀ r ∈ l, r.metadataId = s.metadataId ∧ r.date = s.date ∧ r.progress = 100 := by
  intro r hr
  suffices hsuf : r.metadataId = (mkVariables s).metadataId ∧ r.date = (mkVariables s).date ∧
      r.progress = (mkVariables s).progress by
    exact hsuf
  simp only [progressUpdate] at h
  cases hosu : onlySeasonUpdates (mkVariables s) s sh with
  | error e => rw [hosu] at h; cases h
  | ok osu =>
    rw [hosu] at h
    simp only [Except.ok.injEq] at h
    subst h
    simp only [List.mem_append] at hr
    rcases hr with ((((h1 | h2) | h3) | h4) | h5) | h6
    · unfold animeUpdates at h1
      split at h1
      · simp only [List.mem_map] at h1
        obtain ⟨i, -, rfl⟩ := h1
        exact ⟨rfl, rfl, rfl⟩
      · cases h1
    · unfold mangaUpdates at h2
      split at h2
      · simp only [List.mem_map] at h2
        obtain ⟨i, -, rfl⟩ := h2
        exact ⟨rfl, rfl, rfl⟩
      · cases h2
    · unfold completeShowUpdates at h3
      split at h3
      · rcases List.mem_flatMap.mp h3 with ⟨t, -, ht⟩
        exact mem_seasonRecords_common ht
      · cases h3
    · exact mem_onlySeasonUpdates_common hosu h4
    · unfold completePodcastUpdates at h5
      split at h5
      · simp only [List.mem_map] at h5
        obtain ⟨e, -, rfl⟩ := h5
        exact ⟨rfl, rfl, rfl⟩
      · cases h5
    · split at h6
      · simp only [List.mem_singleton] at h6
        subst h6
        exact ⟨rfl, rfl, rfl⟩
      · cases h6

/-- Claim C8 witness: the five-record anime expansion at `subAnime5` carries
metadataId 7, the submitted date and progress 100 on every record. -/
theorem claim_C8_witness :
    progressUpdate subAnime5 [] []
        = Except.ok ((intRange1 5).map fun i => { mkVariables subAnime5 with animeEpisodeNumber := some i }) ∧
      ∀ r ∈ (intRange1 5).map fun i => { mkVariables subAnime5 with animeEpisodeNumber := some i },
        r.metadataId = subAnime5.metadataId ∧ r.date = subAnime5.date ∧ r.progress = 100 :=
  ⟨by rfl, claim_C8_commonFields subAnime5 [] [] _ (by rfl)⟩

/-- Claim C9: for an Anime (resp. Manga) intent with `allBefore` set and a
positive episode (resp. chapter) number `n`, each of the `n` records differs
from the base `variables` record only in `animeEpisodeNumber` (resp.
`mangaChapterNumber`): restoring that one field yields the base record
exactly, so every other field — including any show or podcast specific
fields of the submission — is copied unchanged into all `n` records. -/
theorem claim_C9_frame (s : Submission) (sh : List SeasonEntry) (pc : List PodcastEntry) (n : Int)
    (h : (s.metadataLot = MetadataLot.Anime ∧ s.animeEpisodeNumber = some n ∧ 1 ≤ n ∧
            s.animeAllEpisodesBefore = true)
       ∨ (s.metadataLot = MetadataLot.Manga ∧ s.mangaChapterNumber = some n ∧ 1 ≤ n ∧
            s.mangaAllChaptersBefore = true)) :
    ∃ l, progressUpdate s sh pc = Except.ok l ∧ l.length = n.toNat ∧
      ∀ r ∈ l, if s.metadataLot = MetadataLot.Anime
        then { r with animeEpisodeNumber := s.animeEpisodeNumber } = mkVariables s
        else { r with mangaChapterNumber := s.mangaChapterNumber } = mkVariables s := by
  rcases h with ⟨hLot, hEp, hn, hAll⟩ | ⟨hLot, hEp, hn, hAll⟩
  · have hosu := onlySeasonUpdates_inactive (mkVariables s) s sh (by simp [hLot])
    have htr : jsTruthy (some n) = true := by
      simp only [jsTruthy, decide_eq_true_eq]; omega
    refine ⟨(intRange1 n).map fun i => { mkVariables s with animeEpisodeNumber := some i },
      ?_, ?_, ?_⟩
    · simp only [progressUpdate, hosu]
      simp [animeUpdates, mangaUpdates, completeShowUpdates, completePodcastUpdates,
        needsFinalUpdate, hLot, hAll, htr, hEp]
    · rw [List.length_map, intRange1, List.length_map, List.length_range]
    · intro r hr
      simp only [List.mem_map] at hr
      obtain ⟨i, -, rfl⟩ := hr
      simp [hLot, mkVariables]
  · have hosu := onlySeasonUpdates_inactive (mkVariables s) s sh (by simp [hLot])
    have htr : jsTruthy (some n) = true := by
      simp only [jsTruthy, decide_eq_true_eq]; omega
    refine ⟨(intRange1 n).map fun i => { mkVariables s with mangaChapterNumber := some i },
      ?_, ?_, ?_⟩
    · simp only [progressUpdate, hosu]
      simp [animeUpdates, mangaUpdates, completeShowUpdates, completePodcastUpdates,
        needsFinalUpdate, hLot, hAll, htr, hEp]
    · rw [List.length_map, intRange1, List.length_map, List.length_range]
    · intro r hr
      simp only [List.mem_map] at hr
      obtain ⟨i, -, rfl⟩ := hr
      simp [hLot, mkVariables]

/-- Claim C9 witness: for the anime intent `subAnime5` (which also carries a
submitted `showSeasonNumber`-free flat field set) all five records restore to
the base record when `animeEpisodeNumber` is put back. -/
theorem claim_C9_witness :
    ∃ l, progressUpdate { subAnime5 with podcastEpisodeNumber := some 9 } [] []
        = Except.ok l ∧ l.length = (5 : Int).toNat ∧
      ∀ r ∈ l, if ({ subAnime5 with podcastEpisodeNumber := some 9 } : Submission).metadataLot
          = MetadataLot.Anime
        then { r with animeEpisodeNumber :=
            ({ subAnime5 with podcastEpisodeNumber := some 9 } : Submission).animeEpisodeNumber }
          = mkVariables { subAnime5 with podcastEpisodeNumber := some 9 }
        else { r with mangaChapterNumber :=
            ({ subAnime5 with podcastEpisodeNumber := some 9 } : Submission).mangaChapterNumber }
          = mkVariables { subAnime5 with podcastEpisodeNumber := some 9 } :=
  claim_C9_frame { subAnime5 with podcastEpisodeNumber := some 9 } [] [] 5
    (Or.inl ⟨rfl, rfl, by decide, rfl⟩)

/-- With both `StrongApp` fields present, the dispatch reduces to the result
of `JSON.parse` on the mapping string: a parsed value is wrapped in the
`strongApp` payload, a parse failure surfaces as the untagged JSON syntax
error. -/
theorem dispatch_strongApp (e m : String) :
    dispatch ImportSource.StrongApp [("exportPath", e), ("mapping", m)] =
      match Json.parse m with
      | some j => Except.ok (ImportPayload.strongApp e j)
      | none => Except.error (DispatchError.badJson m) := rfl

/-- Claim C4 counterexample: dispatching `StrongApp` with exportPath
`x.csv` and the malformed mapping `not json` does fail before any
submission, but with the untagged `JSON.parse` syntax error, not with a
field-tagged schema `ValidationError` on the mapping field as the claim
states: the mapping field passed schema validation (it is a string), and the
error the code throws carries no field. -/
theorem claim_C4_counterexample :
    dispatch ImportSource.StrongApp [("exportPath", "x.csv"), ("mapping", "not json")]
        = Except.error (DispatchError.badJson "not json") ∧
      isValidationErr
        (dispatch ImportSource.StrongApp [("exportPath", "x.csv"), ("mapping", "not json")])
        = false :=
  ⟨rfl, rfl⟩

/-- Claim C4 amended: with exportPath and mapping present, a mapping string
that `JSON.parse` rejects makes the dispatch fail before any submission with
the untagged JSON syntax error (not a field-tagged schema validation error),
and the mapping string `[]` makes it succeed with an empty mapping list in
the `strongApp` payload. -/
theorem claim_C4_amended (e m : String) (hm : Json.parse m = none) :
    dispatch ImportSource.StrongApp [("exportPath", e), ("mapping", m)]
        = Except.error (DispatchError.badJson m) ∧
      isValidationErr (dispatch ImportSource.StrongApp [("exportPath", e), ("mapping", m)])
        = false ∧
      dispatch ImportSource.StrongApp [("exportPath", e), ("mapping", "[]")]
        = Except.ok (ImportPayload.strongApp e (Json.arr [])) := by
  have hd := dispatch_strongApp e m
  rw [hm] at hd
  refine ⟨hd, by rw [hd]; rfl, ?_⟩
  have hd2 := dispatch_strongApp e "[]"
  rw [show Json.parse "[]" = some (Json.arr []) from rfl] at hd2
  exact hd2

/-- Claim C4 witness: the amended statement at exportPath `x.csv`, malformed
mapping `not json` (which `JSON.parse` rejects) and well-formed mapping
`[]`. -/
theorem claim_C4_witness :
    Json.parse "not json" = none ∧
      (dispatch ImportSource.StrongApp [("exportPath", "x.csv"), ("mapping", "not json")]
          = Except.error (DispatchError.badJson "not json") ∧
        isValidationErr
          (dispatch ImportSource.StrongApp [("exportPath", "x.csv"), ("mapping", "not json")])
          = false ∧
        dispatch ImportSource.StrongApp [("exportPath", "x.csv"), ("mapping", "[]")]
          = Except.ok (ImportPayload.strongApp "x.csv" (Json.arr []))) :=
  ⟨rfl, claim_C4_amended "x.csv" "not json" rfl⟩

/-- Claim C5: for every value of `ImportSource`, dispatch succeeds on a
fully-populated valid field set, producing the payload variant keyed by that
source (the payload is a tagged union, so exactly one variant is populated
and the fields of all other variants are absent), and fails with a
field-tagged validation error on the empty field set — no source is silently
accepted with missing fields, and the match over the enumeration is
exhaustive. -/
theorem claim_C5_allSources (src : ImportSource) :
    okPayloadKey (dispatch src (validFields src)) = some (sourceKey src) ∧
      isValidationErr (dispatch src []) = true := by
  cases src <;> exact ⟨rfl, rfl⟩

/-- Claim C5 witness: the statement instantiated at the `StrongApp` source
(the source with the richest field set). -/
theorem claim_C5_witness :
    okPayloadKey (dispatch ImportSource.StrongApp (validFields ImportSource.StrongApp))
        = some (sourceKey ImportSource.StrongApp) ∧
      isValidationErr (dispatch ImportSource.StrongApp []) = true :=
  claim_C5_allSources ImportSource.StrongApp

end Ryot

